import Mathlib

/-!
Verification development for the adsb-exporter snapshot-to-time-series
reconciliation engine (`main.go`).

The embedding works over parsed JSON values: a `Json` value is what Go's
`encoding/json` produces when decoding into `interface{}` (nil, bool,
float64, string, `[]interface{}`, `map[string]interface{}`).  Numbers are
carried as exact rationals; syntactic distinctions between numeral
spellings of the same value (e.g. `5` vs `5e0`) are below this model.
-/

set_option maxHeartbeats 1000000

namespace Adsb

/-- Parsed JSON value, as produced by `encoding/json` into `interface{}`.
Object keys keep their textual order. -/
inductive Json where
  | null
  | bool (b : Bool)
  | num (q : ℚ)
  | str (s : String)
  | arr (xs : List Json)
  | obj (kvs : List (String × Json))

/-- Whether the value is JSON null (a nil `interface{}` in Go). -/
def Json.isNull : Json → Bool
  | .null => true
  | _ => false

/-- Whether the value is the string `m` (Go type assertion `.(string)`
followed by comparison). -/
def Json.isStr (m : String) : Json → Bool
  | .str s => s = m
  | _ => false

/-- Model of a Go `float64` value: a finite value (held as the exact
rational it denotes) or one of the IEEE-754 special values. -/
inductive GoFloat where
  | finite (q : ℚ)
  | nan
  | posInf
  | negInf
deriving DecidableEq

/-- Whether the modelled `float64` is a finite value. -/
def GoFloat.isFinite : GoFloat → Bool
  | .finite _ => true
  | _ => false

/-- ASCII lower-casing of one character. -/
def lowerChar (c : Char) : Char :=
  if 'A' ≤ c ∧ c ≤ 'Z' then Char.ofNat (c.toNat + 32) else c

/-- The special spellings accepted by `strconv.ParseFloat` before its
numeric grammar: case-insensitive `NaN`, and optionally signed `Inf` /
`Infinity` (Go `strconv`'s `special` function). -/
def parseFloatSpecial (s : String) : Option GoFloat :=
  let l := s.data.map lowerChar
  if l = "nan".data then some .nan
  else if l = "inf".data ∨ l = "infinity".data ∨ l = "+inf".data ∨ l = "+infinity".data then
    some .posInf
  else if l = "-inf".data ∨ l = "-infinity".data then some .negInf
  else none

/-- Numeric value of a list of decimal digit characters. -/
def digitsVal (l : List Char) : Nat :=
  l.foldl (fun a c => a * 10 + (c.toNat - 48)) 0

/-- Rational denoted by integer digits `ip`, fraction digits `fp` and a
decimal exponent `e`. -/
def buildQ (ip fp : List Char) (e : ℤ) : ℚ :=
  (digitsVal (ip ++ fp) : ℚ) / (10 : ℚ) ^ (fp.length) * (10 : ℚ) ^ e

/-- Parse the exponent digits of a float literal (at least one digit,
nothing may follow). -/
def parseExpDigits (l : List Char) : Option ℤ :=
  if l ≠ [] ∧ l.all Char.isDigit then some (digitsVal l) else none

/-- Parse the optional exponent part of a float literal; the empty rest
means exponent `0`, anything else must be `e`/`E`, an optional sign and
digits. -/
def parseExp : List Char → Option ℤ
  | [] => some 0
  | c :: r =>
    if c = 'e' ∨ c = 'E' then
      match r with
      | '+' :: r2 => parseExpDigits r2
      | '-' :: r2 => (parseExpDigits r2).map Int.neg
      | r2 => parseExpDigits r2
    else none

/-- Parse an unsigned decimal float literal: digits, an optional dot with
further digits (at least one digit in the mantissa overall), and an
optional exponent; the whole input must be consumed. -/
def parseDecCore (l : List Char) : Option ℚ :=
  let ip := l.takeWhile Char.isDigit
  let r1 := l.dropWhile Char.isDigit
  match r1 with
  | '.' :: r2 =>
    let fp := r2.takeWhile Char.isDigit
    let r3 := r2.dropWhile Char.isDigit
    if ip.isEmpty ∧ fp.isEmpty then none
    else (parseExp r3).map (buildQ ip fp)
  | r1' => if ip.isEmpty then none else (parseExp r1').map (buildQ ip [])

/-- Parse an optionally signed decimal float literal. -/
def parseDecimal : List Char → Option ℚ
  | [] => none
  | '+' :: r => parseDecCore r
  | '-' :: r => (parseDecCore r).map (fun q => -q)
  | l => parseDecCore l

/-- Smallest magnitude at which `strconv.ParseFloat` reports an overflow
range error: values at or above the `float64` rounding threshold
`(2^54 - 1) * 2^970`. -/
def overflowBound : ℚ := ((2 : ℚ) ^ (54 : ℕ) - 1) * (2 : ℚ) ^ (970 : ℕ)

/-- Magnitude at or below which a nonzero value rounds to zero and
`strconv.ParseFloat` reports an underflow range error (half the smallest
subnormal; exact behaviour at the boundary tie is approximated). -/
def underflowBound : ℚ := 1 / (2 : ℚ) ^ (1075 : ℕ)

/-- Model of `strconv.ParseFloat(s, 64)` restricted to its success/value
behaviour: `none` means a non-nil error (syntax or range).  The special
spellings (`NaN`, `Inf`, ...) succeed with non-finite values.  Finite
results keep their exact rational value (IEEE rounding is below this
model).  Hexadecimal float literals and digit-group underscores, which Go
also accepts (as additional finite values), are not modelled. -/
def goParseFloat (s : String) : Option GoFloat :=
  match parseFloatSpecial s with
  | some g => some g
  | none =>
    match parseDecimal s.data with
    | none => none
    | some q =>
      if overflowBound ≤ |q| then none
      else if q ≠ 0 ∧ |q| ≤ underflowBound then none
      else some (.finite q)

/-- Model of `numericFromInterface` (main.go).  The Go switch also has
`float32`, `int`, `int64` and `json.Number` arms; those dynamic types
never arise from `encoding/json` decoding into `interface{}` and are not
representable here.  `nil`, `float64`, `string` and the default arm
(bool, array, object) are modelled. -/
def numericFromInterface : Json → GoFloat × Bool
  | .null => (.finite 0, false)
  | .num q => (.finite q, true)
  | .str s =>
    match goParseFloat s with
    | some g => (g, true)
    | none => (.finite 0, false)
  | _ => (.finite 0, false)


/-!
Decoded record model for `aircrafts.json` (struct `Aircraft` and
`AircraftsFile` in main.go).  Pointer fields (`*float64`, `*int`) are
`Option`s; `interface{}` fields keep the raw `Json` value; plain `string`
/ `int` fields default to the Go zero value.
-/

/-- Decoded aircraft record (struct `Aircraft`). -/
structure Aircraft where
  hex : String := ""
  flight : String := ""
  altBaro : Json := .null
  altGeom : Json := .null
  gs : Option ℚ := none
  ias : Option ℚ := none
  tas : Option ℚ := none
  mach : Option ℚ := none
  track : Option ℚ := none
  trackRate : Option ℚ := none
  roll : Option ℚ := none
  magHeading : Option ℚ := none
  trueHeading : Option ℚ := none
  baroRate : Option ℚ := none
  geomRate : Option ℚ := none
  squawk : String := ""
  emergency : String := ""
  category : String := ""
  navQNH : Option ℚ := none
  navAltMCP : Option ℚ := none
  navAltFMS : Option ℚ := none
  navHeading : Option ℚ := none
  navModes : Json := .null
  lat : Option ℚ := none
  lon : Option ℚ := none
  nic : Option ℤ := none
  rc : Option ℤ := none
  seenPos : Option ℚ := none
  version : Option ℤ := none
  nicBaro : Option ℤ := none
  nacp : Option ℤ := none
  nacv : Option ℤ := none
  sil : Option ℤ := none
  silType : String := ""
  gva : Option ℤ := none
  sda : Option ℤ := none
  messages : ℤ := 0
  seen : Option ℚ := none
  rssi : Option ℚ := none
  mlat : Json := .null
  tisb : Json := .null

/-- Decoded top-level record (struct `AircraftsFile`). -/
structure AircraftsFile where
  now : ℚ := 0
  messages : ℤ := 0
  aircraft : List Aircraft := []

/-- Unmarshalling a JSON value into a Go `string` field: null is a no-op,
a string sets the field, anything else is an `UnmarshalTypeError`. -/
def jStringOpt : Json → Option (Option String)
  | .null => some none
  | .str s => some (some s)
  | _ => none

/-- Unmarshalling a JSON value into a Go `float64` / `*float64` field:
null is a no-op, a number sets the field, anything else is an error. -/
def jNumOpt : Json → Option (Option ℚ)
  | .null => some none
  | .num q => some (some q)
  | _ => none

/-- Bound of Go's 64-bit signed integers. -/
def int64Bound : ℤ := 2 ^ 63

/-- Unmarshalling a JSON value into a Go `int` / `*int` / `int64` field:
null is a no-op; a number must be an integer in 64-bit range (Go rejects
fractional values and overflow), anything else is an error. -/
def jIntOpt : Json → Option (Option ℤ)
  | .null => some none
  | .num q =>
    if q.den = 1 ∧ -int64Bound ≤ q.num ∧ q.num < int64Bound then some (some q.num) else none
  | _ => none

/-- How one JSON tag of the `Aircraft` struct is decoded: into a string
field, a numeric field, an integer field, an `interface{}` field, or
ignored because no field carries that tag. -/
inductive FieldSpec where
  | fstr (set : String → Aircraft → Aircraft)
  | fnum (set : ℚ → Aircraft → Aircraft)
  | fint (set : ℤ → Aircraft → Aircraft)
  | fany (set : Json → Aircraft → Aircraft)
  | funknown

/-- Case-folding of one JSON key character, as used by the
case-insensitive fallback field match of `encoding/json`: ASCII letters
fold by case, and the two non-ASCII runes whose simple case fold lands
in ASCII — the Kelvin sign and the long s — fold to `k` and `s`.  All
other runes fold outside ASCII and can never match the all-ASCII field
tags, so keeping them unchanged is exact for this struct. -/
def foldKeyChar (c : Char) : Char :=
  if 'A' ≤ c ∧ c ≤ 'Z' then Char.ofNat (c.toNat + 32)
  else if c = '\u212A' then 'k'
  else if c = '\u017F' then 's'
  else c

/-- Case-folded form of a JSON object key, canonicalised to the
lowercase field tags. -/
def foldKey (s : String) : String := String.mk (s.data.map foldKeyChar)

/-- The JSON tag table of the `Aircraft` struct (its field declarations
with their `json:"..."` tags), matched by exact tag. -/
def aircraftFieldSpec : String → FieldSpec
  | "hex" => .fstr fun s ac => { ac with hex := s }
  | "flight" => .fstr fun s ac => { ac with flight := s }
  | "alt_baro" => .fany fun v ac => { ac with altBaro := v }
  | "alt_geom" => .fany fun v ac => { ac with altGeom := v }
  | "gs" => .fnum fun q ac => { ac with gs := some q }
  | "ias" => .fnum fun q ac => { ac with ias := some q }
  | "tas" => .fnum fun q ac => { ac with tas := some q }
  | "mach" => .fnum fun q ac => { ac with mach := some q }
  | "track" => .fnum fun q ac => { ac with track := some q }
  | "track_rate" => .fnum fun q ac => { ac with trackRate := some q }
  | "roll" => .fnum fun q ac => { ac with roll := some q }
  | "mag_heading" => .fnum fun q ac => { ac with magHeading := some q }
  | "true_heading" => .fnum fun q ac => { ac with trueHeading := some q }
  | "baro_rate" => .fnum fun q ac => { ac with baroRate := some q }
  | "geom_rate" => .fnum fun q ac => { ac with geomRate := some q }
  | "squawk" => .fstr fun s ac => { ac with squawk := s }
  | "emergency" => .fstr fun s ac => { ac with emergency := s }
  | "category" => .fstr fun s ac => { ac with category := s }
  | "nav_qnh" => .fnum fun q ac => { ac with navQNH := some q }
  | "nav_altitude_mcp" => .fnum fun q ac => { ac with navAltMCP := some q }
  | "nav_altitude_fms" => .fnum fun q ac => { ac with navAltFMS := some q }
  | "nav_heading" => .fnum fun q ac => { ac with navHeading := some q }
  | "nav_modes" => .fany fun v ac => { ac with navModes := v }
  | "lat" => .fnum fun q ac => { ac with lat := some q }
  | "lon" => .fnum fun q ac => { ac with lon := some q }
  | "nic" => .fint fun n ac => { ac with nic := some n }
  | "rc" => .fint fun n ac => { ac with rc := some n }
  | "seen_pos" => .fnum fun q ac => { ac with seenPos := some q }
  | "version" => .fint fun n ac => { ac with version := some n }
  | "nic_baro" => .fint fun n ac => { ac with nicBaro := some n }
  | "nac_p" => .fint fun n ac => { ac with nacp := some n }
  | "nac_v" => .fint fun n ac => { ac with nacv := some n }
  | "sil" => .fint fun n ac => { ac with sil := some n }
  | "sil_type" => .fstr fun s ac => { ac with silType := s }
  | "gva" => .fint fun n ac => { ac with gva := some n }
  | "sda" => .fint fun n ac => { ac with sda := some n }
  | "messages" => .fint fun n ac => { ac with messages := n }
  | "seen" => .fnum fun q ac => { ac with seen := some q }
  | "rssi" => .fnum fun q ac => { ac with rssi := some q }
  | "mlat" => .fany fun v ac => { ac with mlat := v }
  | "tisb" => .fany fun v ac => { ac with tisb := v }
  | _ => .funknown

/-- Field resolution of `encoding/json`: an exact tag match first, then
the case-insensitive fallback via the folded key; keys matching no field
either way are ignored. -/
def aircraftFieldLookup (k : String) : FieldSpec :=
  match aircraftFieldSpec k with
  | .funknown => aircraftFieldSpec (foldKey k)
  | fs => fs

/-- Decode one object entry into the running `Aircraft` value.  Go's
`Unmarshal` keeps decoding after a type error and reports the first
error at the end; since the caller drops the value on error, the
short-circuiting `Option` is observationally equivalent. -/
def setAircraftField (ac : Aircraft) (kv : String × Json) : Option Aircraft :=
  match aircraftFieldLookup kv.1 with
  | .fstr f => (jStringOpt kv.2).map fun o => (o.map fun s => f s ac).getD ac
  | .fnum f => (jNumOpt kv.2).map fun o => (o.map fun q => f q ac).getD ac
  | .fint f => (jIntOpt kv.2).map fun o => (o.map fun n => f n ac).getD ac
  | .fany f => some (f kv.2 ac)
  | .funknown => some ac

/-- Unmarshal one element of the `aircraft` array into an `Aircraft`:
null leaves the zero struct, an object decodes entry by entry, anything
else is a type error. -/
def decodeAircraft : Json → Option Aircraft
  | .null => some {}
  | .obj kvs => kvs.foldlM setAircraftField {}
  | _ => none

/-- Decode the elements of the `aircraft` array in order; any failing
element fails the decode. -/
def decodeAircraftList : List Json → Option (List Aircraft)
  | [] => some []
  | x :: xs =>
    match decodeAircraft x, decodeAircraftList xs with
    | some a, some l => some (a :: l)
    | _, _ => none

/-- Field resolution for the top-level `AircraftsFile` struct: an exact
tag match keeps the key, otherwise the case-folded key is tried. -/
def aircraftsFileTag (k : String) : String :=
  match k with
  | "now" => k
  | "messages" => k
  | "aircraft" => k
  | _ => foldKey k

/-- Decode one object entry of the top-level `AircraftsFile` struct
(fields `now`, `messages`, `aircraft`, matched exactly or
case-insensitively; other keys ignored). -/
def setAircraftsFileField (a : AircraftsFile) (kv : String × Json) : Option AircraftsFile :=
  match aircraftsFileTag kv.1 with
  | "now" => (jNumOpt kv.2).map fun o => (o.map fun q => { a with now := q }).getD a
  | "messages" => (jIntOpt kv.2).map fun o => (o.map fun n => { a with messages := n }).getD a
  | "aircraft" =>
    match kv.2 with
    | .null => some a
    | .arr xs => (decodeAircraftList xs).map fun l => { a with aircraft := l }
    | _ => none
  | _ => some a

/-- Model of `json.Unmarshal(b, &a)` for `AircraftsFile`, applied to the
parsed JSON value: `none` is a non-nil error (the poll aborts). -/
def decodeAircraftsFile : Json → Option AircraftsFile
  | .null => some {}
  | .obj kvs => kvs.foldlM setAircraftsFileField {}
  | _ => none

/-!
Specification-style well-typedness predicates: they constrain only the
present keys that resolve (exactly or case-insensitively) to a known
field, at any depth, and never require any key to be present.
-/

/-- A series key: metric name plus the ordered label-value tuple. -/
abbrev SeriesKey := String × List (String × String)

/-- The published metric surface: value of each existing series. -/
abbrev SeriesState := SeriesKey → Option GoFloat

/-- Identity labels of one aircraft (`prometheus.Labels{hex, flight,
category}`). -/
structure Labels3 where
  hex : String
  flight : String
  category : String
deriving DecidableEq

/-- Ordered label tuple of the identity labels (declaration order of the
aircraft gauge vectors). -/
def labelList (L : Labels3) : List (String × String) :=
  [("hex", L.hex), ("flight", L.flight), ("category", L.category)]

/-- Identity labels of an aircraft record. -/
def acLabels (ac : Aircraft) : Labels3 := ⟨ac.hex, ac.flight, ac.category⟩

/-- Registry key of an identity: `hex + "|" + flight + "|" + category`. -/
def joinKey (L : Labels3) : String := L.hex ++ "|" ++ L.flight ++ "|" ++ L.category

/-- Registry key of an aircraft record. -/
def acIdKey (ac : Aircraft) : String := joinKey (acLabels ac)

/-- Series assignment of an optional float field (`if ac.F != nil {
Set(*ac.F) }`). -/
def qSeg (n : String) (L : List (String × String)) : Option ℚ → List (SeriesKey × GoFloat)
  | none => []
  | some q => [((n, L), .finite q)]

/-- Series assignment of an optional int field. -/
def iSeg (n : String) (L : List (String × String)) : Option ℤ → List (SeriesKey × GoFloat)
  | none => []
  | some m => [((n, L), .finite (m : ℚ))]

/-- Series assignment of an `interface{}` field passed through
`numericFromInterface` (`if n, ok := ...; ok { Set(n) }`). -/
def coerceSeg (n : String) (L : List (String × String)) (v : Json) : List (SeriesKey × GoFloat) :=
  if (numericFromInterface v).2 then [((n, L), (numericFromInterface v).1)] else []

/-- Series assignment of an always-published int field (`messages`). -/
def msgSeg (n : String) (L : List (String × String)) (m : ℤ) : List (SeriesKey × GoFloat) :=
  [((n, L), .finite (m : ℚ))]

/-- The fixed set of known nav-mode flag names. -/
def possibleModes : List String := ["autopilot", "vnav", "althold", "approach", "lnav", "tcas"]

/-- Whether the decoded `nav_modes` value lists flag `m`: a string
element equal to `m` in an array; any non-array shape has no flags. -/
def navHas (v : Json) (m : String) : Bool :=
  match v with
  | .arr xs => xs.any (Json.isStr m)
  | _ => false

/-- Gauge value of a boolean (1 active, 0 inactive). -/
def boolVal (b : Bool) : GoFloat := .finite (if b then 1 else 0)

/-- Metric name of the expanded nav-mode boolean series. -/
def navModeName : String := "adsb_aircraft_nav_mode_active"

/-- Nav-mode expansion: when the field is present (non-nil), one boolean
series per known mode, each with the extra `mode` label. -/
def navSeg (ac : Aircraft) : List (SeriesKey × GoFloat) :=
  if ac.navModes.isNull then []
  else
    possibleModes.map fun m =>
      ((navModeName, labelList (acLabels ac) ++ [("mode", m)]), boolVal (navHas ac.navModes m))

/-- String-labeled info series (`squawk`, `emergency`, `sil_type`):
published with value 1 and the string as an extra label, skipped when
empty. -/
def infoSeg (n : String) (L : List (String × String)) (lbl s : String) :
    List (SeriesKey × GoFloat) :=
  if s = "" then [] else [((n, L ++ [(lbl, s)]), .finite 1)]

/-- All series assignments one aircraft record produces, in the order of
the `Set` calls in `updateAircraftsFromFile`. -/
def projectAircraft (ac : Aircraft) : List (SeriesKey × GoFloat) :=
  coerceSeg "adsb_aircraft_alt_baro_feet" (labelList (acLabels ac)) ac.altBaro ++
  coerceSeg "adsb_aircraft_alt_geom_feet" (labelList (acLabels ac)) ac.altGeom ++
  qSeg "adsb_aircraft_ground_speed_kts" (labelList (acLabels ac)) ac.gs ++
  qSeg "adsb_aircraft_ias_kts" (labelList (acLabels ac)) ac.ias ++
  qSeg "adsb_aircraft_tas_kts" (labelList (acLabels ac)) ac.tas ++
  qSeg "adsb_aircraft_mach" (labelList (acLabels ac)) ac.mach ++
  qSeg "adsb_aircraft_track_deg" (labelList (acLabels ac)) ac.track ++
  qSeg "adsb_aircraft_track_rate_deg_per_sec" (labelList (acLabels ac)) ac.trackRate ++
  qSeg "adsb_aircraft_roll_deg" (labelList (acLabels ac)) ac.roll ++
  qSeg "adsb_aircraft_mag_heading_deg" (labelList (acLabels ac)) ac.magHeading ++
  qSeg "adsb_aircraft_true_heading_deg" (labelList (acLabels ac)) ac.trueHeading ++
  qSeg "adsb_aircraft_baro_rate_feet_per_min" (labelList (acLabels ac)) ac.baroRate ++
  qSeg "adsb_aircraft_geom_rate_feet_per_min" (labelList (acLabels ac)) ac.geomRate ++
  qSeg "adsb_aircraft_lat" (labelList (acLabels ac)) ac.lat ++
  qSeg "adsb_aircraft_lon" (labelList (acLabels ac)) ac.lon ++
  qSeg "adsb_aircraft_nav_qnh_hpa" (labelList (acLabels ac)) ac.navQNH ++
  qSeg "adsb_aircraft_nav_heading_deg" (labelList (acLabels ac)) ac.navHeading ++
  qSeg "adsb_aircraft_nav_altitude_mcp_feet" (labelList (acLabels ac)) ac.navAltMCP ++
  qSeg "adsb_aircraft_nav_altitude_fms_feet" (labelList (acLabels ac)) ac.navAltFMS ++
  navSeg ac ++
  iSeg "adsb_aircraft_nic" (labelList (acLabels ac)) ac.nic ++
  iSeg "adsb_aircraft_rc_meters" (labelList (acLabels ac)) ac.rc ++
  iSeg "adsb_aircraft_nic_baro" (labelList (acLabels ac)) ac.nicBaro ++
  iSeg "adsb_aircraft_nac_p" (labelList (acLabels ac)) ac.nacp ++
  iSeg "adsb_aircraft_nac_v" (labelList (acLabels ac)) ac.nacv ++
  iSeg "adsb_aircraft_sil" (labelList (acLabels ac)) ac.sil ++
  iSeg "adsb_aircraft_gva" (labelList (acLabels ac)) ac.gva ++
  iSeg "adsb_aircraft_sda" (labelList (acLabels ac)) ac.sda ++
  iSeg "adsb_aircraft_version" (labelList (acLabels ac)) ac.version ++
  qSeg "adsb_aircraft_seen_pos_seconds" (labelList (acLabels ac)) ac.seenPos ++
  qSeg "adsb_aircraft_seen_seconds" (labelList (acLabels ac)) ac.seen ++
  msgSeg "adsb_aircraft_messages_total" (labelList (acLabels ac)) ac.messages ++
  qSeg "adsb_aircraft_rssi_dbfs" (labelList (acLabels ac)) ac.rssi ++
  infoSeg "adsb_aircraft_squawk_info" (labelList (acLabels ac)) "squawk" ac.squawk ++
  infoSeg "adsb_aircraft_emergency_info" (labelList (acLabels ac)) "emergency" ac.emergency ++
  infoSeg "adsb_aircraft_sil_type_info" (labelList (acLabels ac)) "sil_type" ac.silType

/-- All series assignments of one poll's aircraft list, in order. -/
def projectAircrafts (l : List Aircraft) : List (SeriesKey × GoFloat) :=
  l.flatMap projectAircraft

/-- A series-key tag relative to an identity: the metric name plus the
extra labels beyond the identity triple. -/
abbrev Tag := String × List (String × String)

/-- The series key an identity's label tuple and a tag determine. -/
def mkKeyL (L : List (String × String)) (t : Tag) : SeriesKey := (t.1, L ++ t.2)

/-- Tag of an optional float segment, when present. -/
def qTag (n : String) : Option ℚ → List Tag
  | none => []
  | some _ => [(n, [])]

/-- Tag of an optional int segment, when present. -/
def iTag (n : String) : Option ℤ → List Tag
  | none => []
  | some _ => [(n, [])]

/-- Tag of a coerced `interface{}` segment, when coercion reports a
value. -/
def coerceTag (n : String) (v : Json) : List Tag :=
  if (numericFromInterface v).2 then [(n, [])] else []

/-- Tag of the always-published messages segment. -/
def msgTag (n : String) : List Tag := [(n, [])]

/-- Tags of the nav-mode expansion, when the field is present. -/
def navTagsOf (ac : Aircraft) : List Tag :=
  if ac.navModes.isNull then [] else possibleModes.map fun m => (navModeName, [("mode", m)])

/-- Tag of a string-labeled info segment, when the string is non-empty. -/
def infoTag (n lbl s : String) : List Tag := if s = "" then [] else [(n, [(lbl, s)])]

/-- The tags of the series one aircraft actually publishes, in projection
order. -/
def presentTags (ac : Aircraft) : List Tag :=
  coerceTag "adsb_aircraft_alt_baro_feet" ac.altBaro ++
  coerceTag "adsb_aircraft_alt_geom_feet" ac.altGeom ++
  qTag "adsb_aircraft_ground_speed_kts" ac.gs ++
  qTag "adsb_aircraft_ias_kts" ac.ias ++
  qTag "adsb_aircraft_tas_kts" ac.tas ++
  qTag "adsb_aircraft_mach" ac.mach ++
  qTag "adsb_aircraft_track_deg" ac.track ++
  qTag "adsb_aircraft_track_rate_deg_per_sec" ac.trackRate ++
  qTag "adsb_aircraft_roll_deg" ac.roll ++
  qTag "adsb_aircraft_mag_heading_deg" ac.magHeading ++
  qTag "adsb_aircraft_true_heading_deg" ac.trueHeading ++
  qTag "adsb_aircraft_baro_rate_feet_per_min" ac.baroRate ++
  qTag "adsb_aircraft_geom_rate_feet_per_min" ac.geomRate ++
  qTag "adsb_aircraft_lat" ac.lat ++
  qTag "adsb_aircraft_lon" ac.lon ++
  qTag "adsb_aircraft_nav_qnh_hpa" ac.navQNH ++
  qTag "adsb_aircraft_nav_heading_deg" ac.navHeading ++
  qTag "adsb_aircraft_nav_altitude_mcp_feet" ac.navAltMCP ++
  qTag "adsb_aircraft_nav_altitude_fms_feet" ac.navAltFMS ++
  navTagsOf ac ++
  iTag "adsb_aircraft_nic" ac.nic ++
  iTag "adsb_aircraft_rc_meters" ac.rc ++
  iTag "adsb_aircraft_nic_baro" ac.nicBaro ++
  iTag "adsb_aircraft_nac_p" ac.nacp ++
  iTag "adsb_aircraft_nac_v" ac.nacv ++
  iTag "adsb_aircraft_sil" ac.sil ++
  iTag "adsb_aircraft_gva" ac.gva ++
  iTag "adsb_aircraft_sda" ac.sda ++
  iTag "adsb_aircraft_version" ac.version ++
  qTag "adsb_aircraft_seen_pos_seconds" ac.seenPos ++
  qTag "adsb_aircraft_seen_seconds" ac.seen ++
  msgTag "adsb_aircraft_messages_total" ++
  qTag "adsb_aircraft_rssi_dbfs" ac.rssi ++
  infoTag "adsb_aircraft_squawk_info" "squawk" ac.squawk ++
  infoTag "adsb_aircraft_emergency_info" "emergency" ac.emergency ++
  infoTag "adsb_aircraft_sil_type_info" "sil_type" ac.silType

/-- All tags one aircraft could publish, in projection order; the
present tags are a sublist of these. -/
def fullTags (ac : Aircraft) : List Tag :=
  [("adsb_aircraft_alt_baro_feet", [])] ++
  [("adsb_aircraft_alt_geom_feet", [])] ++
  [("adsb_aircraft_ground_speed_kts", [])] ++
  [("adsb_aircraft_ias_kts", [])] ++
  [("adsb_aircraft_tas_kts", [])] ++
  [("adsb_aircraft_mach", [])] ++
  [("adsb_aircraft_track_deg", [])] ++
  [("adsb_aircraft_track_rate_deg_per_sec", [])] ++
  [("adsb_aircraft_roll_deg", [])] ++
  [("adsb_aircraft_mag_heading_deg", [])] ++
  [("adsb_aircraft_true_heading_deg", [])] ++
  [("adsb_aircraft_baro_rate_feet_per_min", [])] ++
  [("adsb_aircraft_geom_rate_feet_per_min", [])] ++
  [("adsb_aircraft_lat", [])] ++
  [("adsb_aircraft_lon", [])] ++
  [("adsb_aircraft_nav_qnh_hpa", [])] ++
  [("adsb_aircraft_nav_heading_deg", [])] ++
  [("adsb_aircraft_nav_altitude_mcp_feet", [])] ++
  [("adsb_aircraft_nav_altitude_fms_feet", [])] ++
  (possibleModes.map fun m => (navModeName, [("mode", m)])) ++
  [("adsb_aircraft_nic", [])] ++
  [("adsb_aircraft_rc_meters", [])] ++
  [("adsb_aircraft_nic_baro", [])] ++
  [("adsb_aircraft_nac_p", [])] ++
  [("adsb_aircraft_nac_v", [])] ++
  [("adsb_aircraft_sil", [])] ++
  [("adsb_aircraft_gva", [])] ++
  [("adsb_aircraft_sda", [])] ++
  [("adsb_aircraft_version", [])] ++
  [("adsb_aircraft_seen_pos_seconds", [])] ++
  [("adsb_aircraft_seen_seconds", [])] ++
  [("adsb_aircraft_messages_total", [])] ++
  [("adsb_aircraft_rssi_dbfs", [])] ++
  [("adsb_aircraft_squawk_info", [("squawk", ac.squawk)])] ++
  [("adsb_aircraft_emergency_info", [("emergency", ac.emergency)])] ++
  [("adsb_aircraft_sil_type_info", [("sil_type", ac.silType)])]

/-- Discriminator of a tag: its metric name plus, for a nav-mode tag,
the mode value; it is independent of the record's string values and
injective on `fullTags`. -/
def tagDisc (t : Tag) : String × String :=
  (t.1, match t.2 with
    | [("mode", m)] => m
    | _ => "")

/-- First-match lookup in an association list. -/
def lookupL {α β : Type} [DecidableEq α] : List (α × β) → α → Option β
  | [], _ => none
  | kv :: r, k => if kv.1 = k then some kv.2 else lookupL r k

/-- Overwrite-or-create update of an association list: the shared shape
of a Go map assignment and of a Prometheus `Set` on a gauge vector. -/
def upsertL {α β : Type} [DecidableEq α] (k : α) (v : β) (s : List (α × β)) : List (α × β) :=
  if (lookupL s k).isSome then s.map fun kv => if kv.1 = k then (k, v) else kv
  else s ++ [(k, v)]

/-- The reconciler registry `prevAircraftLabels`: identity key to the
labels last published under it. -/
abbrev Registry := List (String × Labels3)

/-- Go map insertion (`m[k] = v`): overwrite the existing entry or add a
new one. -/
def insertR (k : String) (v : Labels3) (r : Registry) : Registry := upsertL k v r

/-- The `cur` map built while iterating over the aircraft list. -/
def buildCur (l : List Aircraft) : Registry :=
  l.foldl (fun r ac => insertR (acIdKey ac) (acLabels ac) r) []

/-- Publish one series (`GaugeVec.Set`). -/
def setSeries (k : SeriesKey) (v : GoFloat) (s : SeriesState) : SeriesState :=
  fun k2 => if k2 = k then some v else s k2

/-- Retract one series (`GaugeVec.Delete`). -/
def delSeries (k : SeriesKey) (s : SeriesState) : SeriesState :=
  fun k2 => if k2 = k then none else s k2

/-- Apply a list of series assignments in order. -/
def publishList (l : List (SeriesKey × GoFloat)) (s : SeriesState) : SeriesState :=
  l.foldl (fun s2 kv => setSeries kv.1 kv.2 s2) s

/-- The aircraft gauge families deleted for a stale identity, in the
order of the `Delete` calls (note: the squawk / emergency / sil_type
info gauges are not in this list). -/
def aircraftGaugeNames : List String :=
  ["adsb_aircraft_alt_baro_feet", "adsb_aircraft_alt_geom_feet", "adsb_aircraft_rssi_dbfs",
   "adsb_aircraft_ground_speed_kts", "adsb_aircraft_ias_kts", "adsb_aircraft_tas_kts",
   "adsb_aircraft_mach", "adsb_aircraft_track_deg", "adsb_aircraft_track_rate_deg_per_sec",
   "adsb_aircraft_roll_deg", "adsb_aircraft_mag_heading_deg", "adsb_aircraft_true_heading_deg",
   "adsb_aircraft_baro_rate_feet_per_min", "adsb_aircraft_geom_rate_feet_per_min",
   "adsb_aircraft_lat", "adsb_aircraft_lon", "adsb_aircraft_nav_qnh_hpa",
   "adsb_aircraft_nav_heading_deg", "adsb_aircraft_nav_altitude_mcp_feet",
   "adsb_aircraft_nav_altitude_fms_feet", "adsb_aircraft_nic", "adsb_aircraft_rc_meters",
   "adsb_aircraft_nic_baro", "adsb_aircraft_nac_p", "adsb_aircraft_nac_v", "adsb_aircraft_sil",
   "adsb_aircraft_gva", "adsb_aircraft_sda", "adsb_aircraft_version",
   "adsb_aircraft_seen_pos_seconds", "adsb_aircraft_seen_seconds",
   "adsb_aircraft_messages_total"]

/-- The series keys deleted for one stale identity: every gauge keyed by
the identity triple plus the six expanded nav-mode series. -/
def staleDeleteKeys (L : Labels3) : List SeriesKey :=
  aircraftGaugeNames.map (fun n => (n, labelList L)) ++
    possibleModes.map fun m => (navModeName, labelList L ++ [("mode", m)])

/-- Retract all series families of one stale identity. -/
def retractAircraft (L : Labels3) (s : SeriesState) : SeriesState :=
  (staleDeleteKeys L).foldl (fun s2 k => delSeries k s2) s

/-- The reconciler state surviving across polls: the registry plus the
published metric surface. -/
structure PollState where
  reg : Registry
  series : SeriesState

/-- Process start state: empty registry, nothing published. -/
def initState : PollState := ⟨[], fun _ => none⟩

/-- The stale registry entries of a poll: previous entries whose key is
absent from `cur`. -/
def staleOf (reg cur : Registry) : Registry :=
  reg.filter fun kv => (lookupL cur kv.1).isNone

/-- One successful aircraft poll (`updateAircraftsFromFile` after a
successful decode): publish all projected series, retract every series
family of each stale identity, drop stale registry entries, then write
all current entries into the registry. -/
def pollDecoded (a : AircraftsFile) (st : PollState) : PollState :=
  let cur := buildCur a.aircraft
  let pub := publishList (projectAircrafts a.aircraft) st.series
  let ser := (staleOf st.reg cur).foldl (fun s kv => retractAircraft kv.2 s) pub
  let reg1 := st.reg.filter fun kv => (lookupL cur kv.1).isSome
  let reg2 := cur.foldl (fun r kv => insertR kv.1 kv.2 r) reg1
  ⟨reg2, ser⟩

/-- Whole poll of the aircraft file: `none` input models a file read
error; a decode error likewise leaves the state untouched. -/
def updateAircraftsFromFile (input : Option Json) (st : PollState) : PollState :=
  match input with
  | none => st
  | some j =>
    match decodeAircraftsFile j with
    | none => st
    | some a => pollDecoded a st

/-!
Model of the accepted-messages block of `applyStatsPeriod` (the local and
remote origins run the same code on their own gauge vectors).  The
`errors` label is `strconv.Itoa(i)`; distinct indices give distinct label
values, modelled by keying the series on the index itself.  Series values
are the `int64` counters (`Set(float64(count))`; the float conversion is
value-preserving for the claims here and is below this model).
-/

/-- A series of the accepted family of one origin: the derived total, or
one per-index accepted-by-error-bits series. -/
inductive AccKey where
  | total (origin period : String)
  | byErr (origin period : String) (idx : Nat)
deriving DecidableEq

/-- Published accepted-family series of both origins. -/
abbrev AccState := List (AccKey × ℤ)

/-- Prometheus `Set`: overwrite the existing series or create it. -/
def setAcc (k : AccKey) (v : ℤ) (s : AccState) : AccState := upsertL k v s

/-- The loop over the accepted sequence: one per-index series per entry,
starting at index `i`. -/
def setAccByErr (origin period : String) : Nat → List ℤ → AccState → AccState
  | _, [], s => s
  | i, c :: rest, s => setAccByErr origin period (i + 1) rest (setAcc (.byErr origin period i) c s)

/-- The accepted block of `applyStatsPeriod` for one origin and period:
`if len(accepted) > 0`, publish one series per index and the total (the
sum accumulated over the loop); an empty sequence publishes nothing. -/
def applyAccepted (origin period : String) (accepted : List ℤ) (s : AccState) : AccState :=
  if accepted.length > 0 then
    setAcc (.total origin period) accepted.sum (setAccByErr origin period 0 accepted s)
  else s

/-- Whether a series key is a per-index accepted series of this origin
and period. -/
def isByErrKey (origin period : String) : AccKey → Bool
  | .byErr o p _ => o = origin ∧ p = period
  | _ => false

/-- The published per-index accepted entries of one origin and period. -/
def perIdxEntries (origin period : String) (s : AccState) : AccState :=
  s.filter fun kv => isByErrKey origin period kv.1

/-- Sum of all published per-index accepted series of one origin and
period. -/
def sumPerIdx (origin period : String) (s : AccState) : ℤ :=
  ((perIdxEntries origin period s).map fun kv => kv.2).sum

/-- The published accepted-total series of one origin and period. -/
def publishedTotal (origin period : String) (s : AccState) : Option ℤ :=
  lookupL s (.total origin period)

/-!
Concrete inputs used by the counterexamples and bug witnesses.
-/

/-- Aircraft present in poll one and gone in poll two (C1 scenario). -/
def acGone : Aircraft := { hex := "a1b2c3", squawk := "7700", messages := 5 }

/-- Poll-one snapshot of the C1 scenario. -/
def pollOneFile : AircraftsFile := { aircraft := [acGone] }

/-- Aircraft present in poll two of the C1 scenario. -/
def acStay : Aircraft := { hex := "d4e5f6" }

/-- Poll-two snapshot of the C1 scenario. -/
def pollTwoFile : AircraftsFile := { aircraft := [acStay] }

/-- Aircraft present in poll one of the C10 scenario. -/
def acTen : Aircraft := { hex := "c0ffee", squawk := "1200", messages := 3 }

/-- Poll-one snapshot of the C10 scenario. -/
def fileTenOne : AircraftsFile := { aircraft := [acTen] }

/-- A well-formed snapshot value without an `aircraft` key. -/
def emptyAircraftJson : Json := .obj [("now", .num 5), ("messages", .num 0)]

/-- A well-formed snapshot value whose `aircraft` key is an empty array. -/
def emptyArrayAircraftJson : Json := .obj [("aircraft", .arr [])]

/-- An aircraft with a present nav-mode array (C6 witness input). -/
def acNav : Aircraft := { hex := "nv1", navModes := .arr [.str "vnav", .str "tcas"] }

/-- Two records sharing the full identity triple but carrying different
values (C8 counterexample input). -/
def dupA : Aircraft := { hex := "dup", messages := 1 }

/-- Second record of the duplicate pair. -/
def dupB : Aircraft := { hex := "dup", messages := 2 }

/-- Functionality of a projected assignment list: no two assignments
share a series key with different values. -/
def projFunctional (A : List (SeriesKey × GoFloat)) : Prop :=
  ∀ kv1 ∈ A, ∀ kv2 ∈ A, kv1.1 = kv2.1 → kv1.2 = kv2.2

/-- Registry well-formedness: every entry's key is the joined form of its
stored labels.  It holds for the empty start registry and is preserved by
every poll. -/
def RegWF (r : Registry) : Prop := ∀ kv ∈ r, kv.1 = joinKey kv.2

/-!
Helper theorems: decode success characterisation.
-/

theorem goParseFloat_finite (s : String) (g : GoFloat)
    (hg : goParseFloat s = some g) (hsp : parseFloatSpecial s = none) :
    g.isFinite = true := by
  unfold goParseFloat at hg
  rw [hsp] at hg
  cases hpd : parseDecimal s.data <;> rw [hpd] at hg
  · cases hg
  · dsimp only at hg
    split at hg
    · cases hg
    · split at hg
      · cases hg
      · simp only [Option.some.injEq] at hg
        subst hg
        rfl

theorem filter_qSeg (n : String) (L : List (String × String)) (v : Option ℚ)
    (hn : (n == navModeName) = false) :
    (qSeg n L v).filter (fun kv => kv.1.1 == navModeName) = [] := by
  cases v <;> simp [qSeg, hn]

theorem filter_iSeg (n : String) (L : List (String × String)) (v : Option ℤ)
    (hn : (n == navModeName) = false) :
    (iSeg n L v).filter (fun kv => kv.1.1 == navModeName) = [] := by
  cases v <;> simp [iSeg, hn]

theorem filter_coerceSeg (n : String) (L : List (String × String)) (v : Json)
    (hn : (n == navModeName) = false) :
    (coerceSeg n L v).filter (fun kv => kv.1.1 == navModeName) = [] := by
  unfold coerceSeg
  split <;> simp [hn]

theorem filter_msgSeg (n : String) (L : List (String × String)) (m : ℤ)
    (hn : (n == navModeName) = false) :
    (msgSeg n L m).filter (fun kv => kv.1.1 == navModeName) = [] := by
  simp [msgSeg, hn]

theorem filter_infoSeg (n : String) (L : List (String × String)) (lbl s : String)
    (hn : (n == navModeName) = false) :
    (infoSeg n L lbl s).filter (fun kv => kv.1.1 == navModeName) = [] := by
  unfold infoSeg
  split <;> simp [hn]

theorem filter_navSeg (ac : Aircraft) :
    (navSeg ac).filter (fun kv => kv.1.1 == navModeName) = navSeg ac := by
  unfold navSeg
  split
  · rfl
  · induction possibleModes with
    | nil => rfl
    | cons m l ih => simp_all

/-!
Helper theorems: association-list lookup and the accepted-family model.
-/


theorem lookupL_nil {α β : Type} [DecidableEq α] (k : α) :
    lookupL ([] : List (α × β)) k = none := rfl

theorem lookupL_cons {α β : Type} [DecidableEq α] (kv : α × β) (s : List (α × β)) (k : α) :
    lookupL (kv :: s) k = if kv.1 = k then some kv.2 else lookupL s k := rfl

theorem lookupL_append_left {α β : Type} [DecidableEq α] {s : List (α × β)} (t : List (α × β))
    {k : α} {v : β} (h : lookupL s k = some v) : lookupL (s ++ t) k = some v := by
  induction s with
  | nil => cases h
  | cons kv s ih =>
    rw [lookupL_cons] at h
    rw [List.cons_append, lookupL_cons]
    by_cases hk : kv.1 = k
    · rwa [if_pos hk] at h ⊢
    · rw [if_neg hk] at h ⊢
      exact ih h

theorem lookupL_append_right {α β : Type} [DecidableEq α] {s : List (α × β)} (t : List (α × β))
    {k : α} (h : lookupL s k = none) : lookupL (s ++ t) k = lookupL t k := by
  induction s with
  | nil => rfl
  | cons kv s ih =>
    rw [lookupL_cons] at h
    rw [List.cons_append, lookupL_cons]
    by_cases hk : kv.1 = k
    · rw [if_pos hk] at h; cases h
    · rw [if_neg hk] at h ⊢
      exact ih h

theorem lookupL_eq_none {α β : Type} [DecidableEq α] {s : List (α × β)} {k : α}
    (h : ∀ kv ∈ s, kv.1 ≠ k) : lookupL s k = none := by
  induction s with
  | nil => rfl
  | cons kv s ih =>
    rw [lookupL_cons, if_neg (h kv (List.mem_cons_self kv s))]
    exact ih fun kv2 h2 => h kv2 (List.mem_cons_of_mem _ h2)

theorem lookupL_mapSet_ne {α β : Type} [DecidableEq α] (k k2 : α) (v : β)
    (s : List (α × β)) (h : k2 ≠ k) :
    lookupL (s.map fun kv => if kv.1 = k then (k, v) else kv) k2 = lookupL s k2 := by
  induction s with
  | nil => rfl
  | cons kv s ih =>
    simp only [List.map_cons]
    by_cases hk : kv.1 = k
    · rw [if_pos hk, lookupL_cons, lookupL_cons]
      have h1 : ¬ k = k2 := fun hh => h hh.symm
      have h2 : ¬ kv.1 = k2 := by rw [hk]; exact h1
      simp [h1, h2, ih]
    · rw [if_neg hk, lookupL_cons, lookupL_cons]
      by_cases hh : kv.1 = k2 <;> simp [hh, ih]

theorem lookupL_mapSet_self {α β : Type} [DecidableEq α] (k : α) (v : β)
    (s : List (α × β)) (h : (lookupL s k).isSome) :
    lookupL (s.map fun kv => if kv.1 = k then (k, v) else kv) k = some v := by
  induction s with
  | nil => simp [lookupL_nil] at h
  | cons kv s ih =>
    simp only [List.map_cons]
    by_cases hk : kv.1 = k
    · rw [if_pos hk, lookupL_cons]
      simp
    · rw [if_neg hk, lookupL_cons, if_neg hk]
      rw [lookupL_cons, if_neg hk] at h
      exact ih h

theorem lookupL_upsert_self {α β : Type} [DecidableEq α] (k : α) (v : β) (s : List (α × β)) :
    lookupL (upsertL k v s) k = some v := by
  unfold upsertL
  split
  case isTrue h => exact lookupL_mapSet_self k v s h
  case isFalse h =>
    have hn : lookupL s k = none := by
      cases hh : lookupL s k with
      | none => rfl
      | some w => rw [hh] at h; simp at h
    rw [lookupL_append_right _ hn, lookupL_cons]
    simp

theorem lookupL_upsert_ne {α β : Type} [DecidableEq α] (k k2 : α) (v : β)
    (s : List (α × β)) (h : k2 ≠ k) :
    lookupL (upsertL k v s) k2 = lookupL s k2 := by
  unfold upsertL
  split
  · exact lookupL_mapSet_ne k k2 v s h
  · cases hh : lookupL s k2 with
    | some w => exact lookupL_append_left _ hh
    | none =>
      rw [lookupL_append_right _ hh, lookupL_cons, if_neg (fun hhh => h hhh.symm), lookupL_nil]

theorem perIdx_append (o p : String) (s t : AccState) :
    perIdxEntries o p (s ++ t) = perIdxEntries o p s ++ perIdxEntries o p t := by
  simp [perIdxEntries, List.filter_append]

theorem perIdx_mapSet_total (o p o2 p2 : String) (v : ℤ) (s : AccState) :
    perIdxEntries o p
        (s.map fun kv => if kv.1 = AccKey.total o2 p2 then (AccKey.total o2 p2, v) else kv) =
      perIdxEntries o p s := by
  unfold perIdxEntries
  induction s with
  | nil => rfl
  | cons kv s ih =>
    obtain ⟨k1, v1⟩ := kv
    simp only [List.map_cons]
    by_cases hk : k1 = AccKey.total o2 p2
    · subst hk
      simp only [List.filter_cons, isByErrKey, if_pos rfl]
      exact ih
    · simp only [List.filter_cons, if_neg hk]
      split <;> simp [ih]

theorem perIdx_setAcc_total (o p o2 p2 : String) (v : ℤ) (s : AccState) :
    perIdxEntries o p (setAcc (.total o2 p2) v s) = perIdxEntries o p s := by
  unfold setAcc upsertL
  split
  · exact perIdx_mapSet_total o p o2 p2 v s
  · rw [perIdx_append]
    simp [perIdxEntries, isByErrKey]

theorem setAccByErr_spec (o p : String) (b : List ℤ) :
    ∀ (i : Nat) (s : AccState),
      (∀ kv ∈ s, ∀ j, kv.1 = AccKey.byErr o p j → j < i) →
      perIdxEntries o p (setAccByErr o p i b s) =
        perIdxEntries o p s ++
          (List.enumFrom i b).map (fun x => (AccKey.byErr o p x.1, x.2)) ∧
      (∀ o2 p2, lookupL (setAccByErr o p i b s) (.total o2 p2) =
        lookupL s (.total o2 p2)) := by
  induction b with
  | nil => intro i s hs; simp [setAccByErr, List.enumFrom]
  | cons c rest ih =>
    intro i s hs
    have hfresh : lookupL s (AccKey.byErr o p i) = none := by
      apply lookupL_eq_none
      intro kv hkv hk
      exact absurd (hs kv hkv i hk) (by omega)
    have hset : setAcc (AccKey.byErr o p i) c s = s ++ [(AccKey.byErr o p i, c)] := by
      unfold setAcc upsertL
      rw [if_neg (by simp [hfresh])]
    have hs2 : ∀ kv ∈ s ++ [(AccKey.byErr o p i, c)], ∀ j,
        kv.1 = AccKey.byErr o p j → j < i + 1 := by
      intro kv hkv j hj
      rcases List.mem_append.mp hkv with hh | hh
      · exact Nat.lt_succ_of_lt (hs kv hh j hj)
      · simp only [List.mem_singleton] at hh
        subst hh
        simp only [AccKey.byErr.injEq] at hj
        omega
    obtain ⟨h1, h2⟩ := ih (i + 1) (s ++ [(AccKey.byErr o p i, c)]) hs2
    have hstep : setAccByErr o p i (c :: rest) s =
        setAccByErr o p (i + 1) rest (setAcc (AccKey.byErr o p i) c s) := rfl
    constructor
    · rw [hstep, hset, h1, perIdx_append]
      simp [perIdxEntries, List.filter_cons, isByErrKey, List.enumFrom]
    · intro o2 p2
      rw [hstep, hset, h2 o2 p2]
      cases hh : lookupL s (AccKey.total o2 p2) with
      | some w => exact lookupL_append_left _ hh
      | none =>
        rw [lookupL_append_right _ hh, lookupL_cons]
        simp [lookupL_nil, hh]

theorem enumFrom_entries_snd (o p : String) (b : List ℤ) :
    ∀ i, (((List.enumFrom i b).map (fun x => (AccKey.byErr o p x.1, x.2))).map
      (fun kv => kv.2)) = b := by
  induction b with
  | nil => intro i; rfl
  | cons c rest ih => intro i; simp [List.enumFrom, ih]

/-!
Helper theorems: Go-map upserts, key sets, and the poll's registry.
-/

theorem mem_upsert {α β : Type} [DecidableEq α] {k : α} {v : β} {s : List (α × β)}
    {kv : α × β} (h : kv ∈ upsertL k v s) : kv = (k, v) ∨ kv ∈ s := by
  unfold upsertL at h
  split at h
  · rcases List.mem_map.mp h with ⟨kv0, hkv0, heq⟩
    by_cases hk : kv0.1 = k
    · rw [if_pos hk] at heq
      exact Or.inl heq.symm
    · rw [if_neg hk] at heq
      exact Or.inr (heq ▸ hkv0)
  · rcases List.mem_append.mp h with hh | hh
    · exact Or.inr hh
    · simp only [List.mem_singleton] at hh
      exact Or.inl hh

theorem lookupL_isSome_of_mem {α β : Type} [DecidableEq α] {s : List (α × β)}
    {kv : α × β} (h : kv ∈ s) : (lookupL s kv.1).isSome := by
  induction s with
  | nil => cases h
  | cons kv0 s ih =>
    rw [lookupL_cons]
    by_cases hk : kv0.1 = kv.1
    · simp [hk]
    · rcases List.mem_cons.mp h with rfl | hh
      · exact absurd rfl hk
      · simp [hk, ih hh]

theorem mem_keys_isSome {α β : Type} [DecidableEq α] {s : List (α × β)} {k : α}
    (h : k ∈ s.map Prod.fst) : (lookupL s k).isSome := by
  rcases List.mem_map.mp h with ⟨kv, hkv, rfl⟩
  exact lookupL_isSome_of_mem hkv

theorem lookupL_none_of_not_mem_keys {α β : Type} [DecidableEq α] {s : List (α × β)} {k : α}
    (h : k ∉ s.map Prod.fst) : lookupL s k = none :=
  lookupL_eq_none fun _kv hkv hk => h (hk ▸ List.mem_map_of_mem Prod.fst hkv)

theorem not_mem_keys_of_lookupL_none {α β : Type} [DecidableEq α] {s : List (α × β)} {k : α}
    (h : lookupL s k = none) : k ∉ s.map Prod.fst := fun hmem => by
  have hs := mem_keys_isSome hmem
  rw [h] at hs
  simp at hs

theorem map_fst_upsert_isSome {α β : Type} [DecidableEq α] {s : List (α × β)} {k : α}
    (v : β) (h : (lookupL s k).isSome) :
    (upsertL k v s).map Prod.fst = s.map Prod.fst := by
  unfold upsertL
  rw [if_pos h, List.map_map]
  apply List.map_congr_left
  intro kv2 _
  by_cases hk : kv2.1 = k <;> simp [hk]

theorem map_fst_upsert_none {α β : Type} [DecidableEq α] {s : List (α × β)} {k : α}
    (v : β) (h : lookupL s k = none) :
    (upsertL k v s).map Prod.fst = s.map Prod.fst ++ [k] := by
  unfold upsertL
  rw [if_neg (by simp [h])]
  simp

theorem nodup_keys_upsert {α β : Type} [DecidableEq α] {s : List (α × β)} (k : α) (v : β)
    (h : (s.map Prod.fst).Nodup) : ((upsertL k v s).map Prod.fst).Nodup := by
  cases hh : lookupL s k with
  | some w =>
    rw [map_fst_upsert_isSome v (by rw [hh]; simp)]
    exact h
  | none =>
    rw [map_fst_upsert_none v hh]
    have hnot : k ∉ s.map Prod.fst := not_mem_keys_of_lookupL_none hh
    simp [List.nodup_append, h, hnot]

theorem nodup_keys_foldl_upsert {α β γ : Type} [DecidableEq α] (key : γ → α) (val : γ → β)
    (l : List γ) :
    ∀ (r0 : List (α × β)), (r0.map Prod.fst).Nodup →
      ((l.foldl (fun r x => upsertL (key x) (val x) r) r0).map Prod.fst).Nodup := by
  induction l with
  | nil => intro r0 h; exact h
  | cons x l ih =>
    intro r0 h
    rw [List.foldl_cons]
    exact ih _ (nodup_keys_upsert _ _ h)

theorem lookupL_foldl_upsert {α β γ : Type} [DecidableEq α] (key : γ → α) (val : γ → β)
    (l : List γ) :
    ∀ (r0 : List (α × β)) (k : α),
      lookupL (l.foldl (fun r x => upsertL (key x) (val x) r) r0) k =
        match lookupL (l.reverse.map fun x => (key x, val x)) k with
        | some v => some v
        | none => lookupL r0 k := by
  induction l with
  | nil => intro r0 k; simp [lookupL_nil]
  | cons x l ih =>
    intro r0 k
    rw [List.foldl_cons, ih]
    rw [List.reverse_cons, List.map_append]
    cases hh : lookupL (l.reverse.map fun x => (key x, val x)) k with
    | some v => rw [lookupL_append_left _ hh]
    | none =>
      rw [lookupL_append_right _ hh]
      simp only [List.map_cons, List.map_nil, lookupL_cons, lookupL_nil]
      by_cases hk : key x = k
      · rw [if_pos hk, ← hk, lookupL_upsert_self]
      · rw [if_neg hk]
        exact lookupL_upsert_ne _ _ _ _ fun hh2 => hk hh2.symm

theorem lookupL_reverse_of_nodup {α β : Type} [DecidableEq α] {s : List (α × β)}
    (h : (s.map Prod.fst).Nodup) (k : α) : lookupL s.reverse k = lookupL s k := by
  induction s with
  | nil => rfl
  | cons kv s ih =>
    rw [List.reverse_cons, lookupL_cons]
    simp only [List.map_cons, List.nodup_cons] at h
    by_cases hk : kv.1 = k
    · rw [if_pos hk]
      have hnone : lookupL s k = none := lookupL_none_of_not_mem_keys (hk ▸ h.1)
      have hrev : lookupL s.reverse k = none := by rw [ih h.2]; exact hnone
      rw [lookupL_append_right _ hrev, lookupL_cons, if_pos hk]
    · rw [if_neg hk]
      cases hh : lookupL s k with
      | some v =>
        have : lookupL s.reverse k = some v := by rw [ih h.2]; exact hh
        exact lookupL_append_left _ this
      | none =>
        have : lookupL s.reverse k = none := by rw [ih h.2]; exact hh
        rw [lookupL_append_right _ this, lookupL_cons, if_neg hk, lookupL_nil]

theorem lookupL_filter_none {α β : Type} [DecidableEq α] (p : α × β → Bool)
    (s : List (α × β)) (k : α) (h : ∀ kv ∈ s, kv.1 = k → p kv = false) :
    lookupL (s.filter p) k = none := by
  induction s with
  | nil => rfl
  | cons kv s ih =>
    rw [List.filter_cons]
    by_cases hp : p kv = true
    · rw [if_pos hp, lookupL_cons]
      have hk : kv.1 ≠ k := fun hh => by rw [h kv (List.mem_cons_self kv s) hh] at hp; cases hp
      rw [if_neg hk]
      exact ih fun kv2 h2 hh2 => h kv2 (List.mem_cons_of_mem _ h2) hh2
    · rw [if_neg hp]
      exact ih fun kv2 h2 hh2 => h kv2 (List.mem_cons_of_mem _ h2) hh2

theorem nodup_keys_buildCur (l : List Aircraft) : ((buildCur l).map Prod.fst).Nodup :=
  nodup_keys_foldl_upsert acIdKey acLabels l [] List.nodup_nil

theorem lookupL_pollDecoded_reg (a : AircraftsFile) (st : PollState) (k : String) :
    lookupL (pollDecoded a st).reg k = lookupL (buildCur a.aircraft) k := by
  show lookupL ((buildCur a.aircraft).foldl (fun r kv => upsertL kv.1 kv.2 r)
      (st.reg.filter fun kv => (lookupL (buildCur a.aircraft) kv.1).isSome)) k = _
  rw [lookupL_foldl_upsert Prod.fst Prod.snd (buildCur a.aircraft) _ k]
  simp only [Prod.mk.eta, List.map_id']
  rw [lookupL_reverse_of_nodup (nodup_keys_buildCur a.aircraft) k]
  cases hh : lookupL (buildCur a.aircraft) k with
  | some v => rfl
  | none =>
    have : lookupL (st.reg.filter fun kv => (lookupL (buildCur a.aircraft) kv.1).isSome) k =
        none := by
      apply lookupL_filter_none
      intro kv _ hk
      rw [hk, hh]
      rfl
    exact this

/-!
Helper theorems: the keys of one aircraft's projection are pairwise
distinct, and their label tuples extend the identity triple.
-/

theorem keys_qSeg (n : String) (L : List (String × String)) (v : Option ℚ) :
    (qSeg n L v).map Prod.fst = (qTag n v).map (mkKeyL L) := by
  cases v <;> simp [qSeg, qTag, mkKeyL]

theorem keys_iSeg (n : String) (L : List (String × String)) (v : Option ℤ) :
    (iSeg n L v).map Prod.fst = (iTag n v).map (mkKeyL L) := by
  cases v <;> simp [iSeg, iTag, mkKeyL]

theorem keys_coerceSeg (n : String) (L : List (String × String)) (v : Json) :
    (coerceSeg n L v).map Prod.fst = (coerceTag n v).map (mkKeyL L) := by
  unfold coerceSeg coerceTag
  split <;> simp [mkKeyL]

theorem keys_msgSeg (n : String) (L : List (String × String)) (m : ℤ) :
    (msgSeg n L m).map Prod.fst = (msgTag n).map (mkKeyL L) := by
  simp [msgSeg, msgTag, mkKeyL]

theorem keys_infoSeg (n : String) (L : List (String × String)) (lbl s : String) :
    (infoSeg n L lbl s).map Prod.fst = (infoTag n lbl s).map (mkKeyL L) := by
  unfold infoSeg infoTag
  split <;> simp [mkKeyL]

theorem keys_navSeg (ac : Aircraft) :
    (navSeg ac).map Prod.fst = (navTagsOf ac).map (mkKeyL (labelList (acLabels ac))) := by
  unfold navSeg navTagsOf
  split
  · rfl
  · simp only [List.map_map]
    apply List.map_congr_left
    intro m _
    rfl

theorem keys_projectAircraft (ac : Aircraft) :
    (projectAircraft ac).map Prod.fst =
      (presentTags ac).map (mkKeyL (labelList (acLabels ac))) := by
  unfold projectAircraft presentTags
  simp only [List.map_append]
  rw [keys_coerceSeg, keys_coerceSeg, keys_qSeg, keys_qSeg, keys_qSeg, keys_qSeg, keys_qSeg,
    keys_qSeg, keys_qSeg, keys_qSeg, keys_qSeg, keys_qSeg, keys_qSeg, keys_qSeg, keys_qSeg,
    keys_qSeg, keys_qSeg, keys_qSeg, keys_qSeg, keys_navSeg, keys_iSeg, keys_iSeg, keys_iSeg,
    keys_iSeg, keys_iSeg, keys_iSeg, keys_iSeg, keys_iSeg, keys_iSeg, keys_qSeg, keys_qSeg,
    keys_msgSeg, keys_qSeg, keys_infoSeg, keys_infoSeg, keys_infoSeg]

theorem qTag_sublist (n : String) (v : Option ℚ) : List.Sublist (qTag n v) [(n, [])] := by
  cases v
  · exact List.nil_sublist _
  · exact List.Sublist.refl _

theorem iTag_sublist (n : String) (v : Option ℤ) : List.Sublist (iTag n v) [(n, [])] := by
  cases v
  · exact List.nil_sublist _
  · exact List.Sublist.refl _

theorem coerceTag_sublist (n : String) (v : Json) : List.Sublist (coerceTag n v) [(n, [])] := by
  unfold coerceTag
  split
  · exact List.Sublist.refl _
  · exact List.nil_sublist _

theorem navTagsOf_sublist (ac : Aircraft) :
    List.Sublist (navTagsOf ac) (possibleModes.map fun m => (navModeName, [("mode", m)])) := by
  unfold navTagsOf
  split
  · exact List.nil_sublist _
  · exact List.Sublist.refl _

theorem infoTag_sublist (n lbl s : String) : List.Sublist (infoTag n lbl s) [(n, [(lbl, s)])] := by
  unfold infoTag
  split
  · exact List.nil_sublist _
  · exact List.Sublist.refl _

theorem presentTags_sublist (ac : Aircraft) : List.Sublist (presentTags ac) (fullTags ac) := by
  unfold presentTags fullTags
  repeat' apply List.Sublist.append
  all_goals
    first
    | exact coerceTag_sublist _ _
    | exact qTag_sublist _ _
    | exact iTag_sublist _ _
    | exact navTagsOf_sublist _
    | exact infoTag_sublist _ _ _
    | exact List.Sublist.refl _

theorem nodup_fullTags (ac : Aircraft) : (fullTags ac).Nodup := by
  have h2 : ((fullTags ac).map tagDisc).Nodup := by
    have h : (fullTags ac).map tagDisc =
      [("adsb_aircraft_alt_baro_feet", ""), ("adsb_aircraft_alt_geom_feet", ""),
       ("adsb_aircraft_ground_speed_kts", ""), ("adsb_aircraft_ias_kts", ""),
       ("adsb_aircraft_tas_kts", ""), ("adsb_aircraft_mach", ""),
       ("adsb_aircraft_track_deg", ""), ("adsb_aircraft_track_rate_deg_per_sec", ""),
       ("adsb_aircraft_roll_deg", ""), ("adsb_aircraft_mag_heading_deg", ""),
       ("adsb_aircraft_true_heading_deg", ""), ("adsb_aircraft_baro_rate_feet_per_min", ""),
       ("adsb_aircraft_geom_rate_feet_per_min", ""), ("adsb_aircraft_lat", ""),
       ("adsb_aircraft_lon", ""), ("adsb_aircraft_nav_qnh_hpa", ""),
       ("adsb_aircraft_nav_heading_deg", ""), ("adsb_aircraft_nav_altitude_mcp_feet", ""),
       ("adsb_aircraft_nav_altitude_fms_feet", ""),
       ("adsb_aircraft_nav_mode_active", "autopilot"),
       ("adsb_aircraft_nav_mode_active", "vnav"),
       ("adsb_aircraft_nav_mode_active", "althold"),
       ("adsb_aircraft_nav_mode_active", "approach"),
       ("adsb_aircraft_nav_mode_active", "lnav"),
       ("adsb_aircraft_nav_mode_active", "tcas"),
       ("adsb_aircraft_nic", ""), ("adsb_aircraft_rc_meters", ""),
       ("adsb_aircraft_nic_baro", ""), ("adsb_aircraft_nac_p", ""),
       ("adsb_aircraft_nac_v", ""), ("adsb_aircraft_sil", ""),
       ("adsb_aircraft_gva", ""), ("adsb_aircraft_sda", ""),
       ("adsb_aircraft_version", ""), ("adsb_aircraft_seen_pos_seconds", ""),
       ("adsb_aircraft_seen_seconds", ""), ("adsb_aircraft_messages_total", ""),
       ("adsb_aircraft_rssi_dbfs", ""), ("adsb_aircraft_squawk_info", ""),
       ("adsb_aircraft_emergency_info", ""), ("adsb_aircraft_sil_type_info", "")] := rfl
    rw [h]
    decide
  exact h2.of_map _

theorem nodup_presentTags (ac : Aircraft) : (presentTags ac).Nodup :=
  (nodup_fullTags ac).sublist (presentTags_sublist ac)

theorem mkKeyL_injective (L : List (String × String)) : Function.Injective (mkKeyL L) := by
  intro t1 t2 h
  unfold mkKeyL at h
  obtain ⟨k1, e1⟩ := t1
  obtain ⟨k2, e2⟩ := t2
  simp only [Prod.mk.injEq] at h ⊢
  exact ⟨h.1, List.append_cancel_left h.2⟩

theorem nodup_keys_projectAircraft (ac : Aircraft) :
    ((projectAircraft ac).map Prod.fst).Nodup := by
  rw [keys_projectAircraft]
  exact (nodup_presentTags ac).map (mkKeyL_injective _)

theorem proj_same_key_eq {ac : Aircraft} {kv1 kv2 : SeriesKey × GoFloat}
    (h1 : kv1 ∈ projectAircraft ac) (h2 : kv2 ∈ projectAircraft ac)
    (hk : kv1.1 = kv2.1) : kv1 = kv2 :=
  List.inj_on_of_nodup_map (nodup_keys_projectAircraft ac) h1 h2 hk

theorem mem_proj_key {ac : Aircraft} {kv : SeriesKey × GoFloat}
    (h : kv ∈ projectAircraft ac) :
    ∃ t ∈ presentTags ac, kv.1 = mkKeyL (labelList (acLabels ac)) t := by
  have hm : kv.1 ∈ (projectAircraft ac).map Prod.fst := List.mem_map_of_mem _ h
  rw [keys_projectAircraft] at hm
  rcases List.mem_map.mp hm with ⟨t, ht, heq⟩
  exact ⟨t, ht, heq.symm⟩

theorem labelList_append_inj {L1 L2 : Labels3} {e1 e2 : List (String × String)}
    (h : labelList L1 ++ e1 = labelList L2 ++ e2) : L1 = L2 ∧ e1 = e2 := by
  obtain ⟨h1, f1, c1⟩ := L1
  obtain ⟨h2, f2, c2⟩ := L2
  simp only [labelList, List.cons_append, List.nil_append, List.cons.injEq,
    Prod.mk.injEq, Labels3.mk.injEq] at h ⊢
  obtain ⟨⟨_, hh⟩, ⟨_, hf⟩, ⟨_, hc⟩, he⟩ := h
  exact ⟨⟨hh, hf, hc⟩, he⟩

/-!
Helper theorems: pointwise behaviour of publish and retract, and the
post-poll registry keys.
-/

theorem mem_of_lookupL {α β : Type} [DecidableEq α] {s : List (α × β)} {k : α} {v : β}
    (h : lookupL s k = some v) : (k, v) ∈ s := by
  induction s with
  | nil => cases h
  | cons kv s ih =>
    rw [lookupL_cons] at h
    by_cases hk : kv.1 = k
    · rw [if_pos hk] at h
      simp only [Option.some.injEq] at h
      have : kv = (k, v) := by
        obtain ⟨k1, v1⟩ := kv
        simp only at hk h
        rw [hk, h]
      exact this ▸ List.mem_cons_self kv s
    · rw [if_neg hk] at h
      exact List.mem_cons_of_mem _ (ih h)

theorem mem_foldl_upsert {α β γ : Type} [DecidableEq α] (key : γ → α) (val : γ → β)
    (l : List γ) :
    ∀ (r0 : List (α × β)) (kv : α × β),
      kv ∈ l.foldl (fun r x => upsertL (key x) (val x) r) r0 →
      (∃ x ∈ l, kv = (key x, val x)) ∨ kv ∈ r0 := by
  induction l with
  | nil => intro r0 kv h; exact Or.inr h
  | cons x l ih =>
    intro r0 kv h
    rw [List.foldl_cons] at h
    rcases ih _ kv h with hh | hh
    · rcases hh with ⟨x2, hx2, he⟩
      exact Or.inl ⟨x2, List.mem_cons_of_mem _ hx2, he⟩
    · rcases mem_upsert hh with he | hh2
      · exact Or.inl ⟨x, List.mem_cons_self x l, he⟩
      · exact Or.inr hh2

theorem lookupL_buildCur_isSome {l : List Aircraft} {ac : Aircraft} (h : ac ∈ l) :
    (lookupL (buildCur l) (acIdKey ac)).isSome := by
  show (lookupL (l.foldl (fun r x => upsertL (acIdKey x) (acLabels x) r) []) _).isSome
  rw [lookupL_foldl_upsert acIdKey acLabels l [] (acIdKey ac)]
  have hmem : acIdKey ac ∈ (l.reverse.map fun x => (acIdKey x, acLabels x)).map Prod.fst := by
    rw [List.map_map]
    exact List.mem_map.mpr ⟨ac, List.mem_reverse.mpr h, rfl⟩
  have hsome := mem_keys_isSome hmem
  cases hh : lookupL (l.reverse.map fun x => (acIdKey x, acLabels x)) (acIdKey ac) with
  | none => rw [hh] at hsome; simp at hsome
  | some v => rfl

theorem mem_pollDecoded_reg {a : AircraftsFile} {st : PollState} {kv : String × Labels3}
    (h : kv ∈ (pollDecoded a st).reg) :
    (lookupL (buildCur a.aircraft) kv.1).isSome := by
  have h2 : kv ∈ (buildCur a.aircraft).foldl (fun r x => upsertL x.1 x.2 r)
      (st.reg.filter fun kv2 => (lookupL (buildCur a.aircraft) kv2.1).isSome) := h
  rcases mem_foldl_upsert Prod.fst Prod.snd _ _ kv h2 with ⟨x, hx, he⟩ | hh
  · rw [he]
    exact lookupL_isSome_of_mem hx
  · exact (List.mem_filter.mp hh).2

theorem buildCur_wf (l : List Aircraft) : RegWF (buildCur l) := by
  intro kv h
  have h2 : kv ∈ l.foldl (fun r x => upsertL (acIdKey x) (acLabels x) r) [] := h
  rcases mem_foldl_upsert acIdKey acLabels l [] kv h2 with ⟨x, _, he⟩ | hh
  · rw [he]
    rfl
  · cases hh

theorem regWF_pollDecoded (a : AircraftsFile) (st : PollState) (h : RegWF st.reg) :
    RegWF (pollDecoded a st).reg := by
  intro kv hkv
  have h2 : kv ∈ (buildCur a.aircraft).foldl (fun r x => upsertL x.1 x.2 r)
      (st.reg.filter fun kv2 => (lookupL (buildCur a.aircraft) kv2.1).isSome) := hkv
  rcases mem_foldl_upsert Prod.fst Prod.snd _ _ kv h2 with ⟨x, hx, he⟩ | hh
  · rw [he]
    exact buildCur_wf a.aircraft x hx
  · exact h kv (List.mem_filter.mp hh).1

theorem publishList_apply (l : List (SeriesKey × GoFloat)) :
    ∀ (s : SeriesState) (k : SeriesKey),
      publishList l s k = match lookupL l.reverse k with
        | some v => some v
        | none => s k := by
  induction l with
  | nil => intro s k; simp [publishList, lookupL_nil]
  | cons kv l ih =>
    intro s k
    have hstep : publishList (kv :: l) s = publishList l (setSeries kv.1 kv.2 s) := rfl
    rw [hstep, ih, List.reverse_cons]
    cases hh : lookupL l.reverse k with
    | some v => rw [lookupL_append_left _ hh]
    | none =>
      rw [lookupL_append_right _ hh, lookupL_cons, lookupL_nil]
      unfold setSeries
      by_cases hk : kv.1 = k
      · rw [if_pos hk, if_pos hk.symm]
      · rw [if_neg hk, if_neg fun hh2 => hk hh2.symm]

theorem delFold_apply (ks : List SeriesKey) :
    ∀ (s : SeriesState) (k : SeriesKey),
      (ks.foldl (fun s2 k2 => delSeries k2 s2) s) k = if k ∈ ks then none else s k := by
  induction ks with
  | nil => intro s k; simp
  | cons k0 ks ih =>
    intro s k
    rw [List.foldl_cons, ih]
    unfold delSeries
    by_cases hk : k ∈ ks
    · simp [hk]
    · by_cases h0 : k = k0 <;> simp [h0, hk]

theorem retractAircraft_apply (L : Labels3) (s : SeriesState) (k : SeriesKey) :
    retractAircraft L s k = if k ∈ staleDeleteKeys L then none else s k :=
  delFold_apply (staleDeleteKeys L) s k

theorem retractList_apply (st : Registry) :
    ∀ (s : SeriesState) (k : SeriesKey),
      (st.foldl (fun s2 kv => retractAircraft kv.2 s2) s) k =
        if k ∈ st.flatMap (fun kv => staleDeleteKeys kv.2) then none else s k := by
  induction st with
  | nil => intro s k; simp
  | cons kv st ih =>
    intro s k
    rw [List.foldl_cons, ih]
    by_cases h1 : k ∈ st.flatMap fun kv2 => staleDeleteKeys kv2.2
    · rw [if_pos h1, if_pos (by simp only [List.flatMap_cons, List.mem_append]; exact Or.inr h1)]
    · rw [if_neg h1, retractAircraft_apply]
      by_cases h2 : k ∈ staleDeleteKeys kv.2
      · rw [if_pos h2,
          if_pos (by simp only [List.flatMap_cons, List.mem_append]; exact Or.inl h2)]
      · rw [if_neg h2, if_neg ?_]
        simp only [List.flatMap_cons, List.mem_append]
        rintro (hh | hh)
        · exact h2 hh
        · exact h1 hh

theorem publish_keys_not_stale (a : AircraftsFile) {kv : SeriesKey × GoFloat}
    (hkv : kv ∈ projectAircrafts a.aircraft) {L : Labels3}
    (hL : lookupL (buildCur a.aircraft) (joinKey L) = none) :
    kv.1 ∉ staleDeleteKeys L := by
  intro hmem
  rcases List.mem_flatMap.mp hkv with ⟨ac, hac, hm⟩
  rcases mem_proj_key hm with ⟨t, _, e1⟩
  have hshape : ∃ (n : String) (ext : List (String × String)),
      kv.1 = (n, labelList L ++ ext) := by
    unfold staleDeleteKeys at hmem
    rcases List.mem_append.mp hmem with hh | hh
    · rcases List.mem_map.mp hh with ⟨n, _, he⟩
      exact ⟨n, [], by rw [← he]; simp⟩
    · rcases List.mem_map.mp hh with ⟨m, _, he⟩
      exact ⟨navModeName, [("mode", m)], he.symm⟩
  rcases hshape with ⟨n, ext, he⟩
  rw [e1] at he
  unfold mkKeyL at he
  have hll := (labelList_append_inj (Prod.ext_iff.mp he).2).1
  have hkey := lookupL_buildCur_isSome hac
  have : acIdKey ac = joinKey L := by
    show joinKey (acLabels ac) = joinKey L
    rw [hll]
  rw [this, hL] at hkey
  simp at hkey

/-!
Claim theorems.
-/

/-- Claim C2: when the file read or the snapshot decode of a poll fails,
the poll publishes nothing, retracts nothing, and leaves the registry
(and the whole published surface) exactly as it was. -/
theorem failed_poll_leaves_state_unchanged (input : Option Json) (st : PollState)
    (h : input = none ∨ ∃ j, input = some j ∧ decodeAircraftsFile j = none) :
    updateAircraftsFromFile input st = st := by
  rcases h with rfl | ⟨j, rfl, hj⟩
  · rfl
  · simp [updateAircraftsFromFile, hj]

/-- Witness for C2: a top-level JSON number fails to decode and the poll
on it leaves the start state unchanged. -/
theorem failed_poll_leaves_state_unchanged_witness :
    decodeAircraftsFile (Json.num 3) = none ∧
      updateAircraftsFromFile (some (Json.num 3)) initState = initState :=
  ⟨rfl, failed_poll_leaves_state_unchanged (some (Json.num 3)) initState
    (Or.inr ⟨Json.num 3, rfl, rfl⟩)⟩

/-- Claim C1 (code bug): after an identity disappears, its registry entry
and its numeric series are retracted, but its string-labeled squawk info
series is still published — the retraction loop has no `Delete` for the
squawk / emergency / sil_type info gauges, so a series carrying the
vanished identity's labels remains after the poll. -/
theorem retraction_misses_info_series :
    lookupL (pollDecoded pollTwoFile (pollDecoded pollOneFile initState)).reg "a1b2c3||" = none ∧
    (pollDecoded pollTwoFile (pollDecoded pollOneFile initState)).series
      ("adsb_aircraft_messages_total", [("hex", "a1b2c3"), ("flight", ""), ("category", "")]) =
      none ∧
    (pollDecoded pollTwoFile (pollDecoded pollOneFile initState)).series
      ("adsb_aircraft_squawk_info",
        [("hex", "a1b2c3"), ("flight", ""), ("category", ""), ("squawk", "7700")]) =
      some (GoFloat.finite 1) := by decide

/-- Claim C10 (code bug): a well-formed snapshot without an `aircraft`
key, or with an empty `aircraft` array, decodes successfully with an
empty identity set, and the poll on it empties the registry and retracts
the numeric series of every previously published aircraft — but the
squawk info series of the vanished aircraft is still published, because
the retraction loop never deletes the info gauges. -/
theorem empty_snapshot_retracts_all_but_info_series :
    (decodeAircraftsFile emptyAircraftJson).map (fun f => buildCur f.aircraft) = some [] ∧
    (decodeAircraftsFile emptyArrayAircraftJson).map (fun f => buildCur f.aircraft) = some [] ∧
    (updateAircraftsFromFile (some emptyAircraftJson) (pollDecoded fileTenOne initState)).reg =
      [] ∧
    (updateAircraftsFromFile (some emptyAircraftJson) (pollDecoded fileTenOne initState)).series
      ("adsb_aircraft_messages_total", [("hex", "c0ffee"), ("flight", ""), ("category", "")]) =
      none ∧
    (updateAircraftsFromFile (some emptyAircraftJson) (pollDecoded fileTenOne initState)).series
      ("adsb_aircraft_squawk_info",
        [("hex", "c0ffee"), ("flight", ""), ("category", ""), ("squawk", "1200")]) =
      some (GoFloat.finite 1) := by decide

/-- Counterexample to claim C8 as stated: two records of one poll that
share the full identity triple project the messages series key with two
different values, so identity labels alone do not make the projected
series functional for arbitrary decoded entity lists. -/
theorem projection_collides_on_duplicate_identity :
    ¬ projFunctional (projectAircrafts [dupA, dupB]) := fun h =>
  absurd
    (h (("adsb_aircraft_messages_total", [("hex", "dup"), ("flight", ""), ("category", "")]),
        GoFloat.finite 1) (by decide)
      (("adsb_aircraft_messages_total", [("hex", "dup"), ("flight", ""), ("category", "")]),
        GoFloat.finite 2) (by decide) rfl)
    (by decide)

/-- Counterexample to claim C5 as stated: the JSON string "NaN" coerces
with present=true but a non-finite value, because `strconv.ParseFloat`
recognises the special spelling with a nil error. -/
theorem coercion_accepts_nan_string :
    numericFromInterface (.str "NaN") = (GoFloat.nan, true) ∧
      GoFloat.nan.isFinite = false := by decide

/-- Claim C5 amended: coercion never errors and, for every JSON scalar
input, returns `present = false` or a float value with `present = true`;
the value is finite except when the input is a string that
`strconv.ParseFloat` maps to one of the special non-finite spellings. -/
theorem coercion_total_amended (v : Json) :
    (numericFromInterface v).2 = false ∨
    (numericFromInterface v).1.isFinite = true ∨
    ∃ s, v = .str s ∧ (parseFloatSpecial s).isSome := by
  cases v with
  | null => exact Or.inl rfl
  | bool b => exact Or.inl rfl
  | num q => exact Or.inr (Or.inl rfl)
  | arr xs => exact Or.inl rfl
  | obj kvs => exact Or.inl rfl
  | str s =>
    cases hsp : parseFloatSpecial s with
    | some g2 => exact Or.inr (Or.inr ⟨s, rfl, by rw [hsp]; rfl⟩)
    | none =>
      cases hs : goParseFloat s with
      | none => left; simp [numericFromInterface, hs]
      | some g =>
        right; left
        simp only [numericFromInterface, hs]
        exact goParseFloat_finite s g hs hsp

/-- Claim C6: for every entity whose nav-mode field is present (non-nil
after decoding), the projection publishes exactly one boolean series per
member of the fixed known flag set, with value 1 when the flag is listed
and 0 otherwise, whatever the shape of the field's value. -/
theorem nav_mode_expansion_complete (ac : Aircraft) (h : ac.navModes.isNull = false) :
    (projectAircraft ac).filter (fun kv => kv.1.1 == navModeName) =
      possibleModes.map fun m =>
        ((navModeName, labelList (acLabels ac) ++ [("mode", m)]),
          boolVal (navHas ac.navModes m)) := by
  unfold projectAircraft
  simp only [List.filter_append]
  rw [filter_coerceSeg _ _ _ (by decide), filter_coerceSeg _ _ _ (by decide),
      filter_qSeg _ _ _ (by decide), filter_qSeg _ _ _ (by decide),
      filter_qSeg _ _ _ (by decide), filter_qSeg _ _ _ (by decide),
      filter_qSeg _ _ _ (by decide), filter_qSeg _ _ _ (by decide),
      filter_qSeg _ _ _ (by decide), filter_qSeg _ _ _ (by decide),
      filter_qSeg _ _ _ (by decide), filter_qSeg _ _ _ (by decide),
      filter_qSeg _ _ _ (by decide), filter_qSeg _ _ _ (by decide),
      filter_qSeg _ _ _ (by decide), filter_qSeg _ _ _ (by decide),
      filter_qSeg _ _ _ (by decide), filter_qSeg _ _ _ (by decide),
      filter_qSeg _ _ _ (by decide),
      filter_navSeg ac,
      filter_iSeg _ _ _ (by decide), filter_iSeg _ _ _ (by decide),
      filter_iSeg _ _ _ (by decide), filter_iSeg _ _ _ (by decide),
      filter_iSeg _ _ _ (by decide), filter_iSeg _ _ _ (by decide),
      filter_iSeg _ _ _ (by decide), filter_iSeg _ _ _ (by decide),
      filter_iSeg _ _ _ (by decide),
      filter_qSeg _ _ _ (by decide), filter_qSeg _ _ _ (by decide),
      filter_msgSeg _ _ _ (by decide),
      filter_qSeg _ _ _ (by decide),
      filter_infoSeg _ _ _ _ (by decide), filter_infoSeg _ _ _ _ (by decide),
      filter_infoSeg _ _ _ _ (by decide)]
  simp [navSeg, h]

/-- Witness for C6: a concrete aircraft whose nav-mode array lists two
flags gets all six boolean series, with the listed two at 1. -/
theorem nav_mode_expansion_complete_witness :
    acNav.navModes.isNull = false ∧
      (projectAircraft acNav).filter (fun kv => kv.1.1 == navModeName) =
        possibleModes.map fun m =>
          ((navModeName, labelList (acLabels acNav) ++ [("mode", m)]),
            boolVal (navHas acNav.navModes m)) :=
  ⟨by decide, nav_mode_expansion_complete acNav (by decide)⟩

/-- Counterexample to claim C4 as stated: after a poll whose accepted
sequence is shorter than the previous poll's, the stale per-index series
at index 1 is still published, so the published total (10) differs from
the sum of all published per-index series (10 + 4). -/
theorem accepted_total_mismatch_after_shrink :
    publishedTotal "local" "latest"
        (applyAccepted "local" "latest" [10]
          (applyAccepted "local" "latest" [3, 4] [])) = some 10 ∧
    sumPerIdx "local" "latest"
        (applyAccepted "local" "latest" [10]
          (applyAccepted "local" "latest" [3, 4] [])) = 14 ∧
    publishedTotal "local" "latest"
        (applyAccepted "local" "latest" [10]
          (applyAccepted "local" "latest" [3, 4] [])) ≠
      some (sumPerIdx "local" "latest"
        (applyAccepted "local" "latest" [10]
          (applyAccepted "local" "latest" [3, 4] []))) := by decide

/-- Claim C4 amended: a poll with an empty accepted sequence publishes
nothing and leaves every series of the family unchanged; after a poll
with a non-empty accepted sequence whose prior state has no per-index
series published for that period and origin (e.g. the first successful
poll), the published total is recomputed as the sum of the sequence and
equals the sum of all published per-index accepted-by-error-bits series. -/
theorem accepted_total_invariant_amended :
    (∀ (o p : String) (s : AccState), applyAccepted o p [] s = s) ∧
    (∀ (o p : String) (s : AccState) (b : List ℤ),
      perIdxEntries o p s = [] → b ≠ [] →
      publishedTotal o p (applyAccepted o p b s) = some b.sum ∧
      sumPerIdx o p (applyAccepted o p b s) = b.sum) := by
  constructor
  · intro o p s; rfl
  · intro o p s b hper hb
    have hlen : b.length > 0 := List.length_pos.mpr hb
    unfold applyAccepted
    rw [if_pos hlen]
    have hs0 : ∀ kv ∈ s, ∀ j, kv.1 = AccKey.byErr o p j → j < 0 := by
      intro kv hkv j hj
      exfalso
      have hbk : isByErrKey o p kv.1 = true := by rw [hj]; simp [isByErrKey]
      have hmem : kv ∈ perIdxEntries o p s := List.mem_filter.mpr ⟨hkv, hbk⟩
      rw [hper] at hmem
      cases hmem
    obtain ⟨h1, h2⟩ := setAccByErr_spec o p b 0 s hs0
    constructor
    · unfold publishedTotal
      exact lookupL_upsert_self _ _ _
    · unfold sumPerIdx
      rw [perIdx_setAcc_total, h1, hper, List.nil_append, enumFrom_entries_snd o p b 0]

theorem accepted_total_invariant_amended_witness :
    perIdxEntries "local" "latest" [] = [] ∧ [2, 3] ≠ ([] : List ℤ) ∧
      publishedTotal "local" "latest" (applyAccepted "local" "latest" [2, 3] []) = some 5 ∧
      sumPerIdx "local" "latest" (applyAccepted "local" "latest" [2, 3] []) = 5 :=
  ⟨rfl, by decide,
    (accepted_total_invariant_amended.2 "local" "latest" [] [2, 3] rfl (by decide)).1,
    (accepted_total_invariant_amended.2 "local" "latest" [] [2, 3] rfl (by decide)).2⟩

/-- Claim C3: after every successful entity poll the registry holds
exactly the identity keys and labels of that poll's `cur` map (no more,
no fewer), and retraction only ever targets registry entries whose key is
absent from `cur`, so no identity key of the current poll is retracted in
the poll that (re)publishes it. -/
theorem registry_tracks_current_poll (a : AircraftsFile) (st : PollState) :
    (∀ k, lookupL (pollDecoded a st).reg k = lookupL (buildCur a.aircraft) k) ∧
    ∀ kv ∈ staleOf st.reg (buildCur a.aircraft), lookupL (buildCur a.aircraft) kv.1 = none := by
  constructor
  · exact lookupL_pollDecoded_reg a st
  · intro kv hkv
    have hp := (List.mem_filter.mp hkv).2
    simpa using hp

/-- Claim C8 amended: within one poll over a decoded entity list whose
identity label triples are pairwise distinct, no two projected series
assignments share a series key with different values — one entity's own
series keys are pairwise distinct, and the identity labels separate
distinct entities' series. -/
theorem projection_functional_amended (l : List Aircraft)
    (h : l.Pairwise fun a b => acLabels a ≠ acLabels b) :
    projFunctional (projectAircrafts l) := by
  induction l with
  | nil => intro kv1 h1; cases h1
  | cons ac l ih =>
    rw [List.pairwise_cons] at h
    intro kv1 h1 kv2 h2 hk
    rw [show projectAircrafts (ac :: l) = projectAircraft ac ++ projectAircrafts l from rfl]
      at h1 h2
    rcases List.mem_append.mp h1 with m1 | m1 <;> rcases List.mem_append.mp h2 with m2 | m2
    · exact congrArg Prod.snd (proj_same_key_eq m1 m2 hk)
    · exfalso
      rcases List.mem_flatMap.mp m2 with ⟨ac2, hac2, hm2⟩
      rcases mem_proj_key m1 with ⟨t1, _, e1⟩
      rcases mem_proj_key hm2 with ⟨t2, _, e2⟩
      rw [e1, e2] at hk
      unfold mkKeyL at hk
      have hll := (labelList_append_inj (Prod.ext_iff.mp hk).2).1
      exact h.1 ac2 hac2 hll
    · exfalso
      rcases List.mem_flatMap.mp m1 with ⟨ac2, hac2, hm1⟩
      rcases mem_proj_key hm1 with ⟨t1, _, e1⟩
      rcases mem_proj_key m2 with ⟨t2, _, e2⟩
      rw [e1, e2] at hk
      unfold mkKeyL at hk
      have hll := (labelList_append_inj (Prod.ext_iff.mp hk).2).1
      exact h.1 ac2 hac2 hll.symm
    · exact ih h.2 kv1 m1 kv2 m2 hk

/-- Witness for C8 amended: two records with distinct identity triples
project a functional assignment list. -/
theorem projection_functional_amended_witness :
    ([dupA, acStay].Pairwise fun a b => acLabels a ≠ acLabels b) ∧
      projFunctional (projectAircrafts [dupA, acStay]) :=
  ⟨by decide, projection_functional_amended _ (by decide)⟩

/-- Claim C9: running the publish-and-reconcile poll twice in a row on
the same decoded snapshot, from any reachable state (one whose registry
entries key their own labels, as the empty start registry does and every
poll preserves — see `regWF_pollDecoded`), leaves the registry lookup
table and every published series value identical to the state after the
first poll. -/
theorem poll_idempotent (a : AircraftsFile) (st : PollState) (hwf : RegWF st.reg) :
    (∀ k, lookupL (pollDecoded a (pollDecoded a st)).reg k =
        lookupL (pollDecoded a st).reg k) ∧
    ∀ sk, (pollDecoded a (pollDecoded a st)).series sk = (pollDecoded a st).series sk := by
  constructor
  · intro k
    rw [lookupL_pollDecoded_reg, lookupL_pollDecoded_reg]
  · intro sk
    have hstale2 : staleOf (pollDecoded a st).reg (buildCur a.aircraft) = [] := by
      unfold staleOf
      rw [List.filter_eq_nil_iff]
      intro kv hkv
      have := mem_pollDecoded_reg hkv
      simp [Option.isNone] at this ⊢
      rcases Option.isSome_iff_exists.mp this with ⟨v, hv⟩
      simp [hv]
    have hser2 : (pollDecoded a (pollDecoded a st)).series =
        (staleOf (pollDecoded a st).reg (buildCur a.aircraft)).foldl
          (fun s kv => retractAircraft kv.2 s)
          (publishList (projectAircrafts a.aircraft) (pollDecoded a st).series) := rfl
    rw [hser2, hstale2]
    show publishList (projectAircrafts a.aircraft) (pollDecoded a st).series sk = _
    rw [publishList_apply]
    cases hh : lookupL (projectAircrafts a.aircraft).reverse sk with
    | none => rfl
    | some v =>
      have hser1 : (pollDecoded a st).series =
          (staleOf st.reg (buildCur a.aircraft)).foldl
            (fun s kv => retractAircraft kv.2 s)
            (publishList (projectAircrafts a.aircraft) st.series) := rfl
      rw [hser1, retractList_apply]
      have hmemA : (sk, v) ∈ projectAircrafts a.aircraft :=
        List.mem_reverse.mp (mem_of_lookupL hh)
      have hnot : sk ∉ (staleOf st.reg (buildCur a.aircraft)).flatMap
          fun kv => staleDeleteKeys kv.2 := by
        intro hmem
        rcases List.mem_flatMap.mp hmem with ⟨kv0, hkv0, hmem2⟩
        have h1 : lookupL (buildCur a.aircraft) kv0.1 = none := by
          have := (List.mem_filter.mp hkv0).2
          simpa using this
        have h2 : kv0.1 = joinKey kv0.2 := hwf kv0 (List.mem_filter.mp hkv0).1
        rw [h2] at h1
        exact publish_keys_not_stale a hmemA h1 hmem2
      rw [if_neg hnot, publishList_apply, hh]

/-- Witness for C9: polling a concrete snapshot twice from the start
state changes nothing after the first poll. -/
theorem poll_idempotent_witness :
    RegWF initState.reg ∧
      ((∀ k, lookupL (pollDecoded pollTwoFile (pollDecoded pollTwoFile initState)).reg k =
          lookupL (pollDecoded pollTwoFile initState).reg k) ∧
        ∀ sk, (pollDecoded pollTwoFile (pollDecoded pollTwoFile initState)).series sk =
          (pollDecoded pollTwoFile initState).series sk) :=
  ⟨fun kv h => absurd h (List.not_mem_nil kv),
    poll_idempotent pollTwoFile initState fun kv h => absurd h (List.not_mem_nil kv)⟩

end Adsb
